import Mathlib

/-!
Verification of the `voter-protocol` district-membership proving core.

This file shallowly embeds the witness-level semantics of the circuit
gadgets and the control flow of the prover/verifier pipeline found in
`packages/crypto/circuits/src` (`merkle.rs`,
`district_membership_single_tier.rs`, `prover.rs`, `wasm.rs`, `utils.rs`)
and proves the specification claims about them.

Conventions of the embedding:
* the BN254 scalar field `Fr` is `ZMod bnR` for the concrete prime `bnR`;
* Poseidon hashes are opaque parameters (`h1 : F → F`, `h2 : F → F → F`):
  the source calls into the external `halo2_base` Poseidon hasher, which
  the claims treat as a black box;
* a Rust `panic!` is a distinguished outcome (`Option.none`, or
  `RunOutcome.panicked`), never an ordinary error string, mirroring the
  difference between `panic!` and returning `Err`;
* fallible Rust functions returning `Result<T, String>` become
  `Except String T`.
-/

namespace VoterProtocol

/-! ## The BN254 scalar field

`bnR` is the order of the BN254 (alt_bn128) scalar field, the modulus of
`halo2curves::bn256::Fr`.  The circuit claims need `ZMod bnR` to be a
field, hence a primality certificate, built below from Lucas's theorem
(`lucas_primality` in Mathlib) with a Pratt-style chain of witnesses.
-/

def bnR : Nat :=
  21888242871839275222246405745257275088548364400416034343698204186575808495617

/-- Fuel-driven binary modular exponentiation, used to keep the kernel
evaluations in the primality certificate cheap. -/
def powMod : Nat → Nat → Nat → Nat → Nat
  | 0, _, _, m => 1 % m
  | fuel + 1, b, e, m =>
    if e = 0 then 1 % m
    else
      let h := powMod fuel b (e / 2) m
      if e % 2 = 0 then h * h % m else h * h % m * (b % m) % m

instance : NeZero bnR := ⟨by decide⟩

/-- The BN254 scalar field (`halo2curves::bn256::Fr`). -/
abbrev F : Type := ZMod bnR

/-! ## `merkle.rs`: input validation, bit decomposition, Merkle verifier -/

/-- `merkle.rs::validate_merkle_inputs`: the non-panicking validator
callers are required to run before constructing the Merkle gadget. -/
def validate_merkle_inputs (pathLen treeDepth : Nat) : Except String Unit :=
  if pathLen ≠ treeDepth then
    Except.error ("Invalid Merkle path length: got " ++ toString pathLen ++
      ", expected " ++ toString treeDepth ++
      ". Path must contain exactly one sibling per tree level.")
  else Except.ok ()

/-- Witness values produced by `merkle.rs::decompose_to_bits`: bit `i` is
read from the little-endian byte representation of `value`
(`value_raw.to_repr().as_ref()[i / 8] >> (i % 8) & 1`), i.e. it is
`value.val.testBit i`, LSB first. -/
def decompose_to_bits (value : F) (numBits : Nat) : List F :=
  (List.range numBits).map fun i => if value.val.testBit i then 1 else 0

/-- `Σ bits[i] * 2^i` exactly as accumulated by the gadget's loop
(`reconstructed += bit * power_of_two`, with `power_of_two` starting at 1
and doubling each iteration). -/
def bitSum : List F → F
  | [] => 0
  | b :: bs => b + 2 * bitSum bs

/-- The constraint system emitted by `decompose_to_bits` on a vector of
`numBits` witnessed bits for `value`: each bit is boolean
(`bit * bit = bit`, CONSTRAINT 1 in the source) and the bits reconstruct
`value` (CONSTRAINT 2 and CONSTRAINT 3: `reconstructed = value`). -/
def decomposeConstraints (value : F) (numBits : Nat) (bits : List F) : Prop :=
  bits.length = numBits ∧ (∀ b ∈ bits, b * b = b) ∧ bitSum bits = value

/-- Value semantics of `halo2_base`'s `gate.select(ctx, a, b, sel)`:
the constrained multiplexer `sel * a + (1 - sel) * b`, which is `a` when
`sel = 1` and `b` when `sel = 0`. -/
def gateSelect (a b sel : F) : F := sel * a + (1 - sel) * b

/-- Witness-level semantics of `merkle.rs::verify_merkle_path_with_hasher`.
The `path.len() != tree_depth` guard is the gadget's `panic!` branch,
modelled as `none`; it fires before the index is decomposed and before any
hash is evaluated.  Otherwise the function decomposes `leaf_index` into
`tree_depth` constrained bits and folds:
`cur := select(hash2(sibling, cur), hash2(cur, sibling), bit)`. -/
def verify_merkle_path_with_hasher (hashPair : F → F → F) (leaf leafIndex : F)
    (path : List F) (treeDepth : Nat) : Option F :=
  if path.length ≠ treeDepth then none
  else
    let indexBits := decompose_to_bits leafIndex treeDepth
    some ((path.zip indexBits).foldl
      (fun currentHash sb =>
        gateSelect (hashPair sb.1 currentHash) (hashPair currentHash sb.1) sb.2)
      leaf)

/-! ## `district_membership_single_tier.rs`: the membership circuit -/

/-- `district_membership_single_tier.rs::DistrictMembershipCircuit`. -/
structure DistrictMembershipCircuit where
  identity_commitment : F
  leaf_index : Nat
  merkle_path : List F
  action_id : F

/-- `Fr::from(leaf_index as u64)`: the `usize` index is cast through `u64`
(wrapping) and then injected into the field. -/
def frFromU64 (n : Nat) : F := ((n % 2 ^ 64 : Nat) : F)

/-- Witness-level semantics of
`DistrictMembershipCircuit::verify_membership`:
1. `leaf_hash = hash1(identity_commitment)`;
2. `computed_district_root` from the Merkle gadget at depth 12
   (`none` when the gadget's length panic fires);
3. `computed_nullifier = hash2(identity_commitment, action_id)`;
4. returns `(computed_district_root, computed_nullifier, action_id)`. -/
def DistrictMembershipCircuit.verify_membership (h1 : F → F) (h2 : F → F → F)
    (c : DistrictMembershipCircuit) : Option (F × F × F) :=
  let leaf_hash := h1 c.identity_commitment
  match verify_merkle_path_with_hasher h2 leaf_hash (frFromU64 c.leaf_index)
      c.merkle_path 12 with
  | none => none
  | some computed_district_root =>
    some (computed_district_root, h2 c.identity_commitment c.action_id, c.action_id)

/-! ## Spec-side definitions (written from the spec's words, §4.3/§4.4) -/

/-- Spec-side Merkle folding: for `i` in `0..depth`, with `H_left =
hash2(cur, siblings[i])` and `H_right = hash2(siblings[i], cur)`, set
`cur = select(H_right, H_left, bits[i])` where `bits[i]` is the i-th
least-significant bit of the integer index.  Written from the spec's
words, to be compared against the embedding of the source. -/
def specMerkleRoot (hashPair : F → F → F) : Nat → List F → F → F
  | _, [], cur => cur
  | idx, s :: rest, cur =>
    specMerkleRoot hashPair (idx / 2) rest
      (if idx % 2 = 1 then hashPair s cur else hashPair cur s)

/-! ## Hex and byte conversions (`utils.rs` and `wasm.rs` helpers) -/

/-- Tri-valued outcome of running a Rust function: a returned value, a
returned error, or a `panic!`. -/
inductive RunOutcome (ε α : Type) where
  | ok (a : α)
  | err (e : ε)
  | panicked

/-- Value of one hex digit character, if any. -/
def hexDigitVal (c : Char) : Option Nat :=
  if '0' ≤ c ∧ c ≤ '9' then some (c.toNat - '0'.toNat)
  else if 'a' ≤ c ∧ c ≤ 'f' then some (c.toNat - 'a'.toNat + 10)
  else if 'A' ≤ c ∧ c ≤ 'F' then some (c.toNat - 'A'.toNat + 10)
  else none

/-- `hex::decode`: two hex digits per byte, most significant digit first;
odd-length or non-hex input fails. -/
def hexDecode : List Char → Option (List Nat)
  | [] => some []
  | [_] => none
  | c1 :: c2 :: rest => do
    let hi ← hexDigitVal c1
    let lo ← hexDigitVal c2
    let bs ← hexDecode rest
    some ((16 * hi + lo) :: bs)

/-- Lower-case hex digit for a value below 16 (`hex::encode` digit set). -/
def hexDigitChar (n : Nat) : Char :=
  if n < 10 then Char.ofNat ('0'.toNat + n) else Char.ofNat ('a'.toNat + (n - 10))

/-- `hex::encode` on a byte sequence. -/
def hexEncode : List Nat → List Char
  | [] => []
  | b :: bs => hexDigitChar (b / 16) :: hexDigitChar (b % 16) :: hexEncode bs

/-- Little-endian numeric value of a byte sequence: byte 0 is least
significant.  This is how `Fr::from_repr` / `Fr::from_bytes` read their
32-byte input. -/
def leBytesToNat : List Nat → Nat
  | [] => 0
  | b :: bs => b + 256 * leBytesToNat bs

/-- The `k` little-endian bytes of `n` (`Fr::to_repr` / `Fr::to_bytes`
produce the 32 little-endian bytes of the canonical representative). -/
def natToLeBytes : Nat → Nat → List Nat
  | 0, _ => []
  | k + 1, n => n % 256 :: natToLeBytes k (n / 256)

/-- `str::trim_start_matches("0x")`: strips every leading occurrence. -/
def trimStart0x : List Char → List Char
  | c1 :: c2 :: rest =>
    if c1 = '0' ∧ c2 = 'x' then trimStart0x rest else c1 :: c2 :: rest
  | cs => cs

/-- `str::strip_prefix("0x")` folded with `unwrap_or`: strips at most one
leading occurrence. -/
def stripPrefix0x : List Char → List Char
  | c1 :: c2 :: rest =>
    if c1 = '0' ∧ c2 = 'x' then rest else c1 :: c2 :: rest
  | cs => cs

/-- `utils.rs::hex_to_field`.  The hex digits are placed right-aligned
(big-endian padding) into a 32-byte buffer, but the buffer is then handed
to `Fr::from_repr`, which reads it as LITTLE-endian bytes — there is no
byte reversal in this function.  More than 32 decoded bytes make the
`copy_from_slice` panic (`start = 0`, slice lengths differ).  The decode
error text produced by the `hex` crate's `Display` is abstracted to a
fixed suffix. -/
def hex_to_field (hex : List Char) : RunOutcome String F :=
  let hex := trimStart0x hex
  match hexDecode hex with
  | none => RunOutcome.err "Invalid hex: invalid input"
  | some bytes =>
    if 32 < bytes.length then RunOutcome.panicked
    else
      let padded := List.replicate (32 - bytes.length) 0 ++ bytes
      let n := leBytesToNat padded
      if n < bnR then RunOutcome.ok ((n : F))
      else RunOutcome.err "Field element out of range"

/-- `utils.rs::field_to_hex`: hex of the raw `to_repr` bytes (little-endian,
no reversal), `0x`-prefixed. -/
def field_to_hex (field : F) : List Char :=
  '0' :: 'x' :: hexEncode (natToLeBytes 32 field.val)

/-- `wasm.rs::parse_fr_hex`: strips one optional `0x` prefix, decodes,
rejects more than 32 bytes, pads big-endian, then REVERSES the buffer
before `Fr::from_bytes` (which is little-endian) — so the hex digits are
read as a big-endian number. -/
def parse_fr_hex (hex : List Char) : Except String F :=
  let hex := stripPrefix0x hex
  match hexDecode hex with
  | none => Except.error "Invalid hex string: invalid input"
  | some bytes =>
    if 32 < bytes.length then
      Except.error ("Hex string too long: " ++ toString bytes.length ++
        " bytes (max 32 for Fr field element)")
    else
      let padded_be := List.replicate (32 - bytes.length) 0 ++ bytes
      let padded_le := padded_be.reverse
      let n := leBytesToNat padded_le
      if n < bnR then Except.ok ((n : F))
      else Except.error "Invalid field element (out of range)"

/-- `wasm.rs::fr_to_hex`: `to_bytes` (little-endian), reversed to
big-endian, hex-encoded with `0x` prefix. -/
def fr_to_hex (fr : F) : List Char :=
  '0' :: 'x' :: hexEncode (natToLeBytes 32 fr.val).reverse

/-! ## `prover.rs`: parameter loading, prover construction, proving,
verification -/

/-- Abstraction of `halo2_base`'s `BaseCircuitParams`: the claims only
need that it is a record computed deterministically by
`builder.calculate_params(Some(9))` from the builder configuration
(`use_k(k)`, `set_lookup_bits(8)`, `set_instance_columns(1)`) after
running the fixed all-zero dummy circuit. -/
structure BaseCircuitParams where
  k : Nat
  lookupBits : Nat
  numInstanceColumns : Nat
deriving DecidableEq

/-- The `calculate_params` result for the keygen-stage builder holding the
all-zero dummy `DistrictMembershipCircuit` at size `k` (deterministic in
`k`; the dummy circuit is a fixed constant of the source). -/
def calculate_params (k : Nat) : BaseCircuitParams := ⟨k, 8, 1⟩

/-- The stage a `RangeCircuitBuilder` is created in: `Keygen`, or
`RangeCircuitBuilder::prover(config_params, break_points)`. -/
inductive BuilderStage where
  | keygen (k : Nat)
  | prover (config_params : BaseCircuitParams) (break_points : List (List Nat))
deriving DecidableEq

/-- A deserialized `ProvingKey`, determined by the bytes it was read from
and the `BaseCircuitParams` supplied as the side input of
`ProvingKey::read`. -/
structure ProvingKey where
  bytes : List Nat
  config_params : BaseCircuitParams
deriving DecidableEq

/-- `ProvingKey::read::<_, RangeCircuitBuilder<Fr>>(reader, RawBytesUnchecked,
config_params)`: deserialization succeeds or fails depending on the bytes
(`pkParses` oracle); on success the key is determined by the bytes and the
supplied `config_params`. -/
def provingKey_read (pkParses : List Nat → Bool) (bytes : List Nat)
    (config_params : BaseCircuitParams) : Except String ProvingKey :=
  if pkParses bytes then Except.ok ⟨bytes, config_params⟩
  else Except.error "Failed to deserialize proving key: read error"

/-- How `load_ceremony_params` obtained KZG parameters: deserialized from
the ceremony file (`verified` records whether the Blake2b digest was
compared against a hard-coded canonical digest before deserializing), or
freshly generated test parameters. -/
inductive ParamsSource where
  | ceremony (verified : Bool)
  | testParams
deriving DecidableEq

/-- The hard-coded `CANONICAL_HASH_K14` (identical constant in `prover.rs`
and `wasm.rs`): Blake2b-512 of the Axiom challenge_0085 k=14 SRS. -/
def canonicalHashK14 : String :=
  "5d56001304a118d53e48bb5b512c125497d58f16af5c115ac6b2360fe515f77f9c897d824b8824c0f2aff0a65b6f12c1cd7725c5a3631aade5731acf3f869ed8"

/-- The hash-mismatch error of `prover.rs::load_ceremony_params`, naming
the expected and the actual digest. -/
def paramsHashMismatchError (expected got : String) (k : Nat) : String :=
  "🚨 SECURITY ERROR: KZG parameter hash mismatch!\n\n" ++
  "Expected (Axiom challenge_0085): " ++ expected ++ "\n" ++
  "Got (potentially corrupted):     " ++ got ++ "\n\n" ++
  "This indicates:\n" ++
  "- File corruption during download\n" ++
  "- Supply-chain attack (malicious file substitution)\n" ++
  "- Wrong parameter file for k=" ++ toString k ++ "\n\n" ++
  "DO NOT PROCEED. Re-download ceremony parameters from Axiom's canonical source:\n" ++
  "https://axiom-crypto.s3.amazonaws.com/challenge_0085/kzg_bn254_" ++
  toString k ++ ".srs\n"

/-- The `load_ceremony_params` error when no parameter file exists and
test parameters are not allowed (the multi-line remediation text of the
source is summarized; no claim quantifies over it). -/
def paramsNotFoundError (k : Nat) : String :=
  "🚨 SECURITY ERROR: KZG ceremony parameters not found\n\n" ++
  "Required file: ./kzg_params/axiom_params_k" ++ toString k ++ ".srs\n" ++
  "(setup instructions follow in the source text)"

/-- On-disk state seen by `Prover::new(k)` for the requested `k`:
the Blake2b-512 digest of `axiom_params_k{k}.srs` when that file exists,
the bytes of `pk_k{k}.bin`, and the parsed content of
`pk_k{k}_break_points.json`. -/
structure DiskState where
  ceremonyFileHash : Option String
  pkFile : Option (List Nat)
  breakPointsFile : Option (List (List Nat))

/-- `prover.rs::load_ceremony_params`.  Mirrors the source control flow:
* ceremony file present: hash the bytes; ONLY for `k = 14` compare against
  `CANONICAL_HASH_K14` (after the dead `PLACEHOLDER_WILL_BE_COMPUTED`
  first-run check) — mismatch is a hard error naming both digests, match
  proceeds to `read_custom`; for every other `k` the source merely prints
  "No canonical hash defined for k=…" and proceeds with UNVERIFIED
  parameters;
* no ceremony file: test parameters only in debug builds with
  `allow_test_params`, otherwise a hard error. -/
def load_ceremony_params (k : Nat) (allowTestParams debugBuild : Bool)
    (disk : DiskState) : Except String ParamsSource :=
  match disk.ceremonyFileHash with
  | some hashHex =>
    if k = 14 then
      if canonicalHashK14 = "PLACEHOLDER_WILL_BE_COMPUTED" then
        Except.ok (ParamsSource.ceremony false)
      else if hashHex ≠ canonicalHashK14 then
        Except.error (paramsHashMismatchError canonicalHashK14 hashHex k)
      else Except.ok (ParamsSource.ceremony true)
    else
      Except.ok (ParamsSource.ceremony false)
  | none =>
    if debugBuild ∧ allowTestParams then Except.ok ParamsSource.testParams
    else Except.error (paramsNotFoundError k)

/-- `wasm.rs::load_ceremony_params_wasm`: only `k = 14` is supported with
the embedded parameters, whose Blake2b-512 digest must equal
`CANONICAL_HASH_K14`; other `k` need the compile-time
`ALLOW_TEST_PARAMS` flag, else a hard error. -/
def load_ceremony_params_wasm (k : Nat) (embeddedParamsHash : String)
    (allowTestParamsFlag : Bool) : Except String ParamsSource :=
  if k = 14 then
    if embeddedParamsHash ≠ canonicalHashK14 then
      Except.error ("🚨 SECURITY ERROR: Embedded K=14 params hash mismatch\n" ++
        "Expected: " ++ canonicalHashK14 ++ "\n" ++
        "Got:      " ++ embeddedParamsHash ++ "\n" ++
        "The embedded params may be corrupted or tampered with.")
    else Except.ok (ParamsSource.ceremony true)
  else if allowTestParamsFlag then Except.ok ParamsSource.testParams
  else
    Except.error ("Unsupported k=" ++ toString k ++
      " in production build. Recompile with ALLOW_TEST_PARAMS=1 for testing.")

/-- `prover.rs::Prover`: the fields persisted in the struct after
`Prover::new` (the verifying key, extracted from the proving key, is
omitted). -/
structure Prover where
  k : Nat
  pk : ProvingKey
  config_params : BaseCircuitParams
  break_points : List (List Nat)

/-- `Prover::new` error when `pk_k{k}.bin` is missing (remediation text of
the source summarized). -/
def pkNotFoundError (k : Nat) : String :=
  "🚨 ERROR: Proving key not found at ./kzg_params/pk_k" ++ toString k ++
  ".bin\n(run generate_verifier to create it)"

/-- `Prover::new` error when `pk_k{k}_break_points.json` is missing
(remediation text of the source summarized). -/
def breakPointsNotFoundError (k : Nat) : String :=
  "🚨 ERROR: Break points not found at ./kzg_params/pk_k" ++ toString k ++
  "_break_points.json\n(run generate_verifier to create it)"

/-- `prover.rs::Prover::new`.  Mirrors the source control flow:
1. reject `k` outside `[10, 20]`;
2. `load_ceremony_params` (with `ALLOW_TEST_PARAMS` read from the
   environment);
3. compute `config_params` with a TEMPORARY keygen-stage builder running
   the all-zero dummy circuit (`calculate_params`);
4. deserialize the proving key from `pk_k{k}.bin` using those
   `config_params` (never `keygen_pk`);
5. parse `break_points` from `pk_k{k}_break_points.json`. -/
def Prover.new (pkParses : List Nat → Bool) (k : Nat)
    (allowTestParams debugBuild : Bool) (disk : DiskState) :
    Except String Prover :=
  if k < 10 ∨ 20 < k then
    Except.error ("Invalid k=" ++ toString k ++ ", must be between 10 and 20")
  else
    match load_ceremony_params k allowTestParams debugBuild disk with
    | Except.error e => Except.error e
    | Except.ok _params =>
      let config_params := calculate_params k
      match disk.pkFile with
      | none => Except.error (pkNotFoundError k)
      | some pkBytes =>
        match provingKey_read pkParses pkBytes config_params with
        | Except.error e => Except.error e
        | Except.ok pk =>
          match disk.breakPointsFile with
          | none => Except.error (breakPointsNotFoundError k)
          | some break_points =>
            Except.ok ⟨k, pk, config_params, break_points⟩

/-- What `Prover::prove` assembles before handing off to
`create_proof::<KZGCommitmentScheme, ProverSHPLONK, …>`: the prover-stage
builder it instantiated, `builder.assigned_instances` and the extracted
`public_instances` vector.  The SHPLONK proof bytes produced from these
are outside the embedding. -/
structure ProveRun where
  builder : BuilderStage
  assigned_instances : List (List F)
  public_instances : List F

/-- `prover.rs::Prover::prove`: instantiates
`RangeCircuitBuilder::prover(self.config_params, self.break_points)`, runs
`circuit.verify_membership`, clears `assigned_instances` and pushes the
single column `[district_root, nullifier, action_id]`, and extracts the
same triple as field values.  A panic of the Merkle gadget propagates. -/
def Prover.prove (h1 : F → F) (h2 : F → F → F) (s : Prover)
    (circuit : DistrictMembershipCircuit) : RunOutcome String ProveRun :=
  let builder := BuilderStage.prover s.config_params s.break_points
  match circuit.verify_membership h1 h2 with
  | none => RunOutcome.panicked
  | some (district_root, nullifier, action_id_out) =>
    RunOutcome.ok
      { builder := builder
        assigned_instances := [[district_root, nullifier, action_id_out]]
        public_instances := [district_root, nullifier, action_id_out] }

/-- `prover.rs::Prover::verify`.  `shplonkVerify` abstracts
`verify_proof::<KZGCommitmentScheme, VerifierSHPLONK, …>` over the
prover's verifying key (`Ok` = accept, `Err e` = reject with `e` the
debug-formatted library error). -/
def Prover.verify (shplonkVerify : List Nat → List F → Except String Unit)
    (proof : List Nat) (public_inputs : List F) : Except String Bool :=
  if public_inputs.length ≠ 3 then
    Except.error ("Expected 3 public inputs, got " ++
      toString public_inputs.length ++
      ". Inputs should be: [district_root, nullifier, action_id]")
  else
    match shplonkVerify proof public_inputs with
    | Except.ok _ => Except.ok true
    | Except.error e => Except.error ("Proof verification failed: " ++ e)

/-! ## `wasm.rs`: the browser shim -/

/-- `Fr::from_str_vartime`: decimal digit string to field element (empty
or non-digit input fails; the value is reduced into the field). -/
def from_str_vartime (cs : List Char) : Option F :=
  if cs.isEmpty then none
  else
    (cs.foldl
      (fun acc c =>
        match acc with
        | none => none
        | some a =>
          if '0' ≤ c ∧ c ≤ '9' then some (10 * a + (c.toNat - '0'.toNat))
          else none)
      (some (0 : Nat))).map fun n => ((n : Nat) : F)

/-- `action_id.starts_with("0x") || action_id.starts_with("0X")`. -/
def startsWithHexPrefix (s : List Char) : Bool :=
  match s with
  | c1 :: c2 :: _ => c1 = '0' ∧ (c2 = 'x' ∨ c2 = 'X')
  | _ => false

/-- The shim's `action_id` parsing: `0x`/`0X` prefix selects hex via
`parse_fr_hex`, otherwise decimal via `Fr::from_str_vartime`. -/
def parseActionId (s : List Char) : Except String F :=
  if startsWithHexPrefix s then parse_fr_hex s
  else
    match from_str_vartime s with
    | some f => Except.ok f
    | none => Except.error ("Invalid action_id: " ++ String.mk s)

/-- Element-wise `parse_fr_hex` over a list of hex strings (the shim's
`merkle_path` and `public_inputs` parsing; the `is not a string` JsValue
check is structural in this embedding, where inputs are already strings). -/
def parseFrList : List (List Char) → Except String (List F)
  | [] => Except.ok []
  | h :: t =>
    match parse_fr_hex h with
    | Except.error e => Except.error e
    | Except.ok f =>
      match parseFrList t with
      | Except.error e => Except.error e
      | Except.ok fs => Except.ok (f :: fs)

/-- `wasm.rs::Prover::prove`: parse `identity_commitment` (hex), then
`action_id` (hex or decimal), then every `merkle_path` element (hex);
reject a parsed path whose length is not 12 BEFORE building the circuit;
then instantiate the prover-stage builder from the cached
`config_params`/`break_points`, run `verify_membership`, and expose the
single instance column `[district_root, nullifier, action_id]`. -/
def wasmProve (h1 : F → F) (h2 : F → F → F)
    (config_params : BaseCircuitParams) (break_points : List (List Nat))
    (identity_commitment : List Char) (action_id : List Char)
    (leaf_index : Nat) (merkle_path : List (List Char)) :
    RunOutcome String ProveRun :=
  match parse_fr_hex identity_commitment with
  | Except.error e => RunOutcome.err e
  | Except.ok identity =>
    match parseActionId action_id with
    | Except.error e => RunOutcome.err e
    | Except.ok action =>
      match parseFrList merkle_path with
      | Except.error e => RunOutcome.err e
      | Except.ok path =>
        if path.length ≠ 12 then
          RunOutcome.err ("Invalid merkle_path length: got " ++
            toString path.length ++
            ", expected 12 siblings for single-tier tree")
        else
          let circuit : DistrictMembershipCircuit :=
            ⟨identity, leaf_index, path, action⟩
          let builder := BuilderStage.prover config_params break_points
          match circuit.verify_membership h1 h2 with
          | none => RunOutcome.panicked
          | some (district_root, nullifier, action_id_out) =>
            RunOutcome.ok
              { builder := builder
                assigned_instances := [[district_root, nullifier, action_id_out]]
                public_instances := [district_root, nullifier, action_id_out] }

/-- `wasm.rs::Prover::verify`: check `public_inputs.len() == 3` FIRST,
then parse each hex input, then run the SHPLONK verifier (same abstraction
as for the native verifier). -/
def wasmVerify (shplonkVerify : List Nat → List F → Except String Unit)
    (proof : List Nat) (public_inputs : List (List Char)) :
    Except String Bool :=
  if public_inputs.length ≠ 3 then
    Except.error ("Invalid public_inputs length: got " ++
      toString public_inputs.length ++
      ", expected 3 values [district_root, nullifier, action_id]")
  else
    match parseFrList public_inputs with
    | Except.error e => Except.error e
    | Except.ok inputs =>
      match shplonkVerify proof inputs with
      | Except.ok _ => Except.ok true
      | Except.error e => Except.error ("Proof verification failed: " ++ e)

/-! ## Theorems -/

theorem powMod_correct (fuel : Nat) : ∀ b e m : Nat, e < 2 ^ fuel →
    powMod fuel b e m = b ^ e % m := by
  induction fuel with
  | zero =>
    intro b e m he
    interval_cases e
    simp [powMod]
  | succ fuel ih =>
    intro b e m he
    by_cases he0 : e = 0
    · simp [powMod, he0]
    · have hdiv : e / 2 < 2 ^ fuel := by
        have : e < 2 ^ fuel * 2 := by
          simpa [Nat.pow_succ] using he
        omega
      have hrec := ih b (e / 2) m hdiv
      have hsplit : e = 2 * (e / 2) + e % 2 := (Nat.div_add_mod e 2).symm.trans (by ring)
      by_cases hpar : e % 2 = 0
      · have hexp : e / 2 + e / 2 = e := by omega
        calc powMod (fuel + 1) b e m
            = powMod fuel b (e / 2) m * powMod fuel b (e / 2) m % m := by
              simp [powMod, he0, hpar]
          _ = (b ^ (e / 2) % m) * (b ^ (e / 2) % m) % m := by rw [hrec]
          _ = b ^ (e / 2) * b ^ (e / 2) % m := by
              rw [Nat.mul_mod (b ^ (e / 2)) (b ^ (e / 2)) m]
          _ = b ^ e % m := by rw [← pow_add, hexp]
      · have hexp : e / 2 + e / 2 + 1 = e := by omega
        calc powMod (fuel + 1) b e m
            = powMod fuel b (e / 2) m * powMod fuel b (e / 2) m % m * (b % m) % m := by
              simp [powMod, he0, hpar]
          _ = (b ^ (e / 2) % m) * (b ^ (e / 2) % m) % m * (b % m) % m := by rw [hrec]
          _ = b ^ (e / 2) * b ^ (e / 2) % m * (b % m) % m := by
              rw [Nat.mul_mod (b ^ (e / 2)) (b ^ (e / 2)) m]
          _ = b ^ (e / 2) * b ^ (e / 2) * b % m := by
              conv_rhs => rw [Nat.mul_mod]
          _ = b ^ e % m := by
              rw [← pow_add, ← pow_succ, hexp]

/-- Transport a `powMod` computation to an equation in `ZMod p`. -/
theorem zmod_pow_eq_powMod (p g e fuel : Nat) (he : e < 2 ^ fuel) :
    ((g : ZMod p) ^ e) = ((powMod fuel g e p : Nat) : ZMod p) := by
  rw [powMod_correct fuel g e p he, ← Nat.cast_pow, ZMod.natCast_mod]

/-- If a prime `q` divides a product of prime powers, it divides (hence
equals, once the bases are prime) one of the bases. -/
theorem prime_dvd_of_dvd_prodPow (q : Nat) (hq : q.Prime) :
    ∀ L : List (Nat × Nat), q ∣ (L.map fun pe => pe.1 ^ pe.2).prod →
      ∃ pe ∈ L, q ∣ pe.1 := by
  intro L
  induction L with
  | nil => intro h; simp at h; exact absurd h hq.ne_one
  | cons pe rest ih =>
    intro h
    simp only [List.map_cons, List.prod_cons] at h
    rcases (Nat.Prime.dvd_mul hq).mp h with h1 | h2
    · exact ⟨pe, List.mem_cons_self pe rest, hq.dvd_of_dvd_pow h1⟩
    · obtain ⟨pe', hmem, hdvd⟩ := ih h2
      exact ⟨pe', List.mem_cons_of_mem _ hmem, hdvd⟩

/-- Lucas primality from a concrete certificate: a generator `g`, the list
`L` of prime-power factors of `p - 1`, and `powMod` computations. -/
theorem prime_of_lucas_cert (p g fuel : Nat) (L : List (Nat × Nat))
    (hp : 1 < p)
    (hfuel : p - 1 < 2 ^ fuel)
    (hfac : (L.map fun pe => pe.1 ^ pe.2).prod = p - 1)
    (hprime : ∀ pe ∈ L, Nat.Prime pe.1)
    (hg : powMod fuel g (p - 1) p = 1 % p)
    (hne : ∀ pe ∈ L, powMod fuel g ((p - 1) / pe.1) p ≠ 1 % p) :
    p.Prime := by
  haveI : NeZero p := ⟨by omega⟩
  haveI : Fact (1 < p) := ⟨hp⟩
  have cast_one : ((1 % p : Nat) : ZMod p) = 1 := by
    rw [ZMod.natCast_mod, Nat.cast_one]
  apply lucas_primality p (g : ZMod p)
  · rw [zmod_pow_eq_powMod p g (p - 1) fuel hfuel, hg, cast_one]
  · intro q hq hdvd
    have hqdvd : q ∣ (L.map fun pe => pe.1 ^ pe.2).prod := by rw [hfac]; exact hdvd
    obtain ⟨pe, hmem, hdvdbase⟩ := prime_dvd_of_dvd_prodPow q hq L hqdvd
    have hqeq : q = pe.1 := (Nat.prime_dvd_prime_iff_eq hq (hprime pe hmem)).mp hdvdbase
    have hne' : powMod fuel g ((p - 1) / q) p ≠ 1 % p := by
      rw [hqeq]; exact hne pe hmem
    have hflt : (p - 1) / q < 2 ^ fuel := lt_of_le_of_lt (Nat.div_le_self _ _) hfuel
    rw [zmod_pow_eq_powMod p g ((p - 1) / q) fuel hflt]
    intro hcontr
    apply hne'
    have hv := congrArg ZMod.val hcontr
    rw [ZMod.val_natCast, ZMod.val_one] at hv
    have hlt2 : powMod fuel g ((p - 1) / q) p < p := by
      rw [powMod_correct fuel g _ p hflt]
      exact Nat.mod_lt _ (by omega)
    rw [Nat.mod_eq_of_lt hlt2] at hv
    rw [hv]
    exact (Nat.mod_eq_of_lt hp).symm

/-! Small primes appearing in the Pratt chain below. -/

theorem prime_2 : Nat.Prime 2 := Nat.prime_two

theorem prime_3 : Nat.Prime 3 := Nat.prime_three

theorem prime_5 : Nat.Prime 5 := by norm_num

theorem prime_7 : Nat.Prime 7 := by norm_num

theorem prime_11 : Nat.Prime 11 := by norm_num

theorem prime_13 : Nat.Prime 13 := by norm_num

theorem prime_19 : Nat.Prime 19 := by norm_num

theorem prime_29 : Nat.Prime 29 := by norm_num

theorem prime_83 : Nat.Prime 83 := by norm_num

theorem prime_107 : Nat.Prime 107 := by norm_num

theorem prime_229 : Nat.Prime 229 := by norm_num

theorem prime_379 : Nat.Prime 379 := by norm_num

theorem prime_661 : Nat.Prime 661 := by norm_num

theorem prime_823 : Nat.Prime 823 := by norm_num

theorem prime_853 : Nat.Prime 853 := by norm_num

theorem prime_983 : Nat.Prime 983 := by norm_num

theorem prime_1637 : Nat.Prime 1637 := by norm_num

theorem prime_3691 : Nat.Prime 3691 := by norm_num

theorem prime_4999 : Nat.Prime 4999 := by norm_num

theorem prime_11003 : Nat.Prime 11003 := by norm_num

theorem prime_41927 : Nat.Prime 41927 := by norm_num

theorem prime_93001 : Nat.Prime 93001 := by norm_num

theorem prime_237073 : Nat.Prime 237073 := by norm_num

set_option maxRecDepth 40000

/-! Pratt-style chain of Lucas certificates leading to the primality of
`bnR`, the BN254 scalar field modulus. -/

theorem prime_405928799 : Nat.Prime 405928799 := by
  apply prime_of_lucas_cert 405928799 22 256 [(2, 1), (11, 1), (3691, 1), (4999, 1)]
  · norm_num
  · decide
  · decide
  · intro pe hpe
    fin_cases hpe
    · exact prime_2
    · exact prime_11
    · exact prime_3691
    · exact prime_4999
  · decide
  · intro pe hpe
    fin_cases hpe <;> decide

theorem prime_1593227 : Nat.Prime 1593227 := by
  apply prime_of_lucas_cert 1593227 2 256 [(2, 1), (19, 1), (41927, 1)]
  · norm_num
  · decide
  · decide
  · intro pe hpe
    fin_cases hpe
    · exact prime_2
    · exact prime_19
    · exact prime_41927
  · decide
  · intro pe hpe
    fin_cases hpe <;> decide

theorem prime_639533339 : Nat.Prime 639533339 := by
  apply prime_of_lucas_cert 639533339 2 256 [(2, 1), (229, 1), (853, 1), (1637, 1)]
  · norm_num
  · decide
  · decide
  · intro pe hpe
    fin_cases hpe
    · exact prime_2
    · exact prime_229
    · exact prime_853
    · exact prime_1637
  · decide
  · intro pe hpe
    fin_cases hpe <;> decide

theorem prime_12048837557 : Nat.Prime 12048837557 := by
  apply prime_of_lucas_cert 12048837557 2 256 [(2, 2), (7, 2), (661, 1), (93001, 1)]
  · norm_num
  · decide
  · decide
  · intro pe hpe
    fin_cases hpe
    · exact prime_2
    · exact prime_7
    · exact prime_661
    · exact prime_93001
  · decide
  · intro pe hpe
    fin_cases hpe <;> decide

theorem prime_5156902474397 : Nat.Prime 5156902474397 := by
  apply prime_of_lucas_cert 5156902474397 2 256 [(2, 2), (107, 1), (12048837557, 1)]
  · norm_num
  · decide
  · decide
  · intro pe hpe
    fin_cases hpe
    · exact prime_2
    · exact prime_107
    · exact prime_12048837557
  · decide
  · intro pe hpe
    fin_cases hpe <;> decide

theorem prime_1670836401704629 : Nat.Prime 1670836401704629 := by
  apply prime_of_lucas_cert 1670836401704629 2 256 [(2, 2), (3, 4), (5156902474397, 1)]
  · norm_num
  · decide
  · decide
  · intro pe hpe
    fin_cases hpe
    · exact prime_2
    · exact prime_3
    · exact prime_5156902474397
  · decide
  · intro pe hpe
    fin_cases hpe <;> decide

theorem prime_65865678001877903 : Nat.Prime 65865678001877903 := by
  apply prime_of_lucas_cert 65865678001877903 5 256
    [(2, 1), (83, 1), (379, 1), (1637, 1), (639533339, 1)]
  · norm_num
  · decide
  · decide
  · intro pe hpe
    fin_cases hpe
    · exact prime_2
    · exact prime_83
    · exact prime_379
    · exact prime_1637
    · exact prime_639533339
  · decide
  · intro pe hpe
    fin_cases hpe <;> decide

theorem prime_13818364434197438864469338081 :
    Nat.Prime 13818364434197438864469338081 := by
  apply prime_of_lucas_cert 13818364434197438864469338081 3 256
    [(2, 5), (5, 1), (823, 1), (1593227, 1), (65865678001877903, 1)]
  · norm_num
  · decide
  · decide
  · intro pe hpe
    fin_cases hpe
    · exact prime_2
    · exact prime_5
    · exact prime_823
    · exact prime_1593227
    · exact prime_65865678001877903
  · decide
  · intro pe hpe
    fin_cases hpe <;> decide

/-- The BN254 scalar field modulus is prime, so `ZMod bnR` is the field
`Fr` the circuits compute in. -/
theorem bnR_prime : Nat.Prime bnR := by
  apply prime_of_lucas_cert bnR 5 256
    [(2, 28), (3, 2), (13, 1), (29, 1), (983, 1), (11003, 1), (237073, 1),
     (405928799, 1), (1670836401704629, 1), (13818364434197438864469338081, 1)]
  · norm_num [bnR]
  · decide
  · decide
  · intro pe hpe
    fin_cases hpe
    · exact prime_2
    · exact prime_3
    · exact prime_13
    · exact prime_29
    · exact prime_983
    · exact prime_11003
    · exact prime_237073
    · exact prime_405928799
    · exact prime_1670836401704629
    · exact prime_13818364434197438864469338081
  · decide
  · intro pe hpe
    fin_cases hpe <;> decide

instance : Fact (Nat.Prime bnR) := ⟨bnR_prime⟩

/-! ### Bridging lemmas -/

theorem gateSelect_one (a b : F) : gateSelect a b 1 = a := by
  simp [gateSelect]

theorem gateSelect_zero (a b : F) : gateSelect a b 0 = b := by
  simp [gateSelect]

/-- The source's fold over `zip(path, index_bits)` agrees with the
spec-side indexed recursion. -/
theorem merkle_fold_eq_spec (hashPair : F → F → F) :
    ∀ (path : List F) (idx : Nat) (leaf : F),
      ((path.zip ((List.range path.length).map
          fun i => if idx.testBit i then (1 : F) else 0)).foldl
        (fun currentHash sb =>
          gateSelect (hashPair sb.1 currentHash) (hashPair currentHash sb.1) sb.2)
        leaf)
      = specMerkleRoot hashPair idx path leaf := by
  intro path
  induction path with
  | nil => intro idx leaf; simp [specMerkleRoot]
  | cons s rest ih =>
    intro idx leaf
    have hrange : List.range (s :: rest).length
        = 0 :: (List.range rest.length).map Nat.succ := by
      simp [List.range_succ_eq_map]
    rw [hrange]
    simp only [List.map_cons, List.map_map, List.zip_cons_cons, List.foldl_cons]
    have hmap : (List.map ((fun i => if idx.testBit i then (1 : F) else 0) ∘ Nat.succ)
        (List.range rest.length))
        = (List.range rest.length).map fun i => if (idx / 2).testBit i then (1 : F) else 0 := by
      apply List.map_congr_left
      intro i _
      simp [Function.comp, Nat.testBit_succ]
    rw [hmap]
    have hstep : gateSelect (hashPair s leaf) (hashPair leaf s)
        (if idx.testBit 0 then (1 : F) else 0)
        = (if idx % 2 = 1 then hashPair s leaf else hashPair leaf s) := by
      by_cases h0 : idx.testBit 0
      · have : idx % 2 = 1 := by
          simpa [Nat.testBit_zero] using h0
        simp [h0, this, gateSelect_one]
      · have : ¬ idx % 2 = 1 := by
          simpa [Nat.testBit_zero] using h0
        simp [h0, this, gateSelect_zero]
    rw [hstep, ih (idx / 2)]
    rfl

theorem decompose_to_bits_length (value : F) (n : Nat) :
    (decompose_to_bits value n).length = n := by
  simp [decompose_to_bits]

theorem decompose_to_bits_boolean (value : F) (n : Nat) :
    ∀ b ∈ decompose_to_bits value n, b * b = b := by
  intro b hb
  simp only [decompose_to_bits, List.mem_map, List.mem_range] at hb
  obtain ⟨i, _, hi⟩ := hb
  by_cases h : value.val.testBit i
  · rw [← hi]; simp [h]
  · rw [← hi]; simp [h]

/-- The witnessed bits of a natural number below `2 ^ n` reconstruct it. -/
theorem bitSum_testBits (n : Nat) : ∀ v : Nat, v < 2 ^ n →
    bitSum ((List.range n).map fun i => if v.testBit i then (1 : F) else 0)
      = (v : F) := by
  induction n with
  | zero =>
    intro v hv
    interval_cases v
    simp [bitSum]
  | succ n ih =>
    intro v hv
    rw [List.range_succ_eq_map]
    simp only [List.map_cons, List.map_map]
    have hmap : (List.map ((fun i => if v.testBit i then (1 : F) else 0) ∘ Nat.succ)
        (List.range n))
        = (List.range n).map fun i => if (v / 2).testBit i then (1 : F) else 0 := by
      apply List.map_congr_left
      intro i _
      simp [Function.comp, Nat.testBit_succ]
    rw [hmap, bitSum]
    have hv2 : v / 2 < 2 ^ n := by
      have : 2 ^ (n + 1) = 2 ^ n * 2 := by rw [pow_succ]
      omega
    rw [ih (v / 2) hv2]
    have hsplit : v = 2 * (v / 2) + v % 2 := by omega
    by_cases h0 : v.testBit 0
    · have h1 : v % 2 = 1 := by simpa [Nat.testBit_zero] using h0
      simp only [h0, if_true]
      calc (1 : F) + 2 * ((v / 2 : Nat) : F)
          = ((2 * (v / 2) + 1 : Nat) : F) := by push_cast; ring
        _ = (v : F) := by rw [← h1, ← hsplit]
    · have h1 : v % 2 = 0 := by
        have h2 : ¬ v % 2 = 1 := by simpa [Nat.testBit_zero] using h0
        omega
      rw [if_neg h0]
      calc (0 : F) + 2 * ((v / 2 : Nat) : F)
          = ((2 * (v / 2) + 0 : Nat) : F) := by push_cast; ring
        _ = (v : F) := by rw [← h1, ← hsplit]

/-- In the (prime) field `F`, the booleanity constraint `b * b = b` has
exactly the solutions 0 and 1. -/
theorem eq_zero_or_one_of_boolean (b : F) (hb : b * b = b) : b = 0 ∨ b = 1 := by
  have h : b * (b - 1) = 0 := by
    calc b * (b - 1) = b * b - b := by ring
      _ = 0 := by rw [hb]; ring
  rcases mul_eq_zero.mp h with h | h
  · exact Or.inl h
  · exact Or.inr (sub_eq_zero.mp h)

/-- A sum of boolean-constrained bits is the image of a natural number
strictly below `2 ^ length`. -/
theorem bitSum_bounded (bits : List F) (hb : ∀ b ∈ bits, b * b = b) :
    ∃ s : Nat, s < 2 ^ bits.length ∧ bitSum bits = (s : F) := by
  induction bits with
  | nil => exact ⟨0, by simp, by simp [bitSum]⟩
  | cons b bs ih =>
    obtain ⟨s, hs, hsum⟩ := ih fun x hx => hb x (List.mem_cons_of_mem _ hx)
    have hpow : 2 ^ (b :: bs).length = 2 ^ bs.length * 2 := by
      simp [pow_succ]
    rcases eq_zero_or_one_of_boolean b (hb b (List.mem_cons_self _ _)) with h | h
    · refine ⟨2 * s, by omega, ?_⟩
      rw [bitSum, h, hsum]
      push_cast
      ring
    · refine ⟨2 * s + 1, by omega, ?_⟩
      rw [bitSum, h, hsum]
      push_cast
      ring

theorem frFromU64_val (n : Nat) (h : n < 2 ^ 64) : (frFromU64 n).val = n := by
  unfold frFromU64
  rw [ZMod.val_natCast, Nat.mod_eq_of_lt h, Nat.mod_eq_of_lt]
  calc n < 2 ^ 64 := h
    _ < bnR := by decide

/-! ## Claim theorems -/

/-- On a length-matching input the Merkle verifier gadget computes the
spec-side fold (shared helper for the claims below). -/
theorem verify_merkle_path_spec (hashPair : F → F → F)
    (leaf leafIndex : F) (path : List F) (depth : Nat)
    (hlen : path.length = depth) :
    verify_merkle_path_with_hasher hashPair leaf leafIndex path depth
      = some (specMerkleRoot hashPair leafIndex.val path leaf) := by
  subst hlen
  unfold verify_merkle_path_with_hasher decompose_to_bits
  rw [if_neg (by simp)]
  exact congrArg some (merkle_fold_eq_spec hashPair path leafIndex.val leaf)

/-- C2: for every `(leaf, index, siblings)` with `siblings` of length
`depth`, the Merkle verifier gadget returns exactly the value obtained by
iterating, for `i` from `0` to `depth - 1`,
`cur := select(hash2(siblings[i], cur), hash2(cur, siblings[i]), bit_i)`
starting from `cur = leaf`, where `bit_i` is the i-th
(least-significant-first) constrained bit of the index
(`specMerkleRoot`, written from the spec's words).  The value is returned
(`some`) for EVERY such input — the gadget has no expected-root parameter
and never equality-constrains the result, so any claimed root is exposed
rather than checked. -/
theorem merkle_verifier_computes_spec_root (hashPair : F → F → F)
    (leaf leafIndex : F) (path : List F) (depth : Nat)
    (hlen : path.length = depth) :
    verify_merkle_path_with_hasher hashPair leaf leafIndex path depth
      = some (specMerkleRoot hashPair leafIndex.val path leaf) :=
  verify_merkle_path_spec hashPair leaf leafIndex path depth hlen

theorem merkle_verifier_computes_spec_root_witness :
    verify_merkle_path_with_hasher (fun a b => a + 2 * b + 1) 5 6 [7, 8] 2
      = some (specMerkleRoot (fun a b => a + 2 * b + 1) (6 : F).val [7, 8] 5) :=
  merkle_verifier_computes_spec_root (fun a b => a + 2 * b + 1) 5 6 [7, 8] 2 rfl

/-- C3: the bit-decomposition gadget emits `n` boolean-constrained bits
(`b * b = b`) together with the reconstruction constraint
`Σ bits[i] * 2^i = v` (`decomposeConstraints`).  For every `v` whose
canonical value is below `2 ^ n` the constraints are satisfiable with the
witnessed bits of `v` (`decompose_to_bits`), and for every `v` with
canonical value at least `2 ^ n` (in particular `v = 2 ^ 12` with
`n = 12`) no bit assignment satisfies them: the truncated bit-sum cannot
equal `v`. -/
theorem bit_decomposition_reconstruction (v : F) (n : Nat) :
    (v.val < 2 ^ n → decomposeConstraints v n (decompose_to_bits v n))
    ∧ (2 ^ n ≤ v.val → ¬ ∃ bits : List F, decomposeConstraints v n bits) := by
  constructor
  · intro hv
    refine ⟨decompose_to_bits_length v n, decompose_to_bits_boolean v n, ?_⟩
    unfold decompose_to_bits
    rw [bitSum_testBits n v.val hv]
    exact ZMod.natCast_rightInverse v
  · rintro hv ⟨bits, hlen, hbool, hsum⟩
    obtain ⟨s, hs, hbs⟩ := bitSum_bounded bits hbool
    rw [hlen] at hs
    rw [hbs] at hsum
    have hval := congrArg ZMod.val hsum
    rw [ZMod.val_natCast] at hval
    have hvlt : v.val < bnR := ZMod.val_lt v
    have hmod : s % bnR = s := Nat.mod_eq_of_lt (by omega)
    omega

theorem bit_decomposition_reconstruction_witness :
    (((7 : Nat) : F).val < 2 ^ 12
      ∧ decomposeConstraints ((7 : Nat) : F) 12 (decompose_to_bits ((7 : Nat) : F) 12))
    ∧ (2 ^ 12 ≤ ((4096 : Nat) : F).val
      ∧ ¬ ∃ bits : List F, decomposeConstraints ((4096 : Nat) : F) 12 bits) := by
  have h7 : ((7 : Nat) : F).val < 2 ^ 12 := by
    rw [ZMod.val_natCast]; decide
  have h4096 : 2 ^ 12 ≤ ((4096 : Nat) : F).val := by
    rw [ZMod.val_natCast]; decide
  exact ⟨⟨h7, (bit_decomposition_reconstruction ((7 : Nat) : F) 12).1 h7⟩,
         ⟨h4096, (bit_decomposition_reconstruction ((4096 : Nat) : F) 12).2 h4096⟩⟩

/-- C7: for every `(leaf, index, siblings)` whose sibling count differs
from the configured tree depth, construction fails before any constraint
of the gadget is emitted: `validate_merkle_inputs` returns an error naming
the actual and the expected length, and the gadget itself refuses (its
`panic!` branch, `none`) — for EVERY hash function, leaf and index, i.e.
before decomposing the index or evaluating any hash. -/
theorem merkle_length_mismatch_rejected (pathLen depth : Nat)
    (hne : pathLen ≠ depth) :
    validate_merkle_inputs pathLen depth
      = Except.error ("Invalid Merkle path length: got " ++ toString pathLen ++
          ", expected " ++ toString depth ++
          ". Path must contain exactly one sibling per tree level.")
    ∧ ∀ (hashPair : F → F → F) (leaf leafIndex : F) (path : List F),
        path.length = pathLen →
        verify_merkle_path_with_hasher hashPair leaf leafIndex path depth
          = none := by
  constructor
  · unfold validate_merkle_inputs
    rw [if_pos hne]
  · intro hashPair leaf leafIndex path hp
    unfold verify_merkle_path_with_hasher
    rw [if_pos (by omega)]

theorem merkle_length_mismatch_rejected_witness :
    validate_merkle_inputs 11 12
      = Except.error ("Invalid Merkle path length: got " ++ toString 11 ++
          ", expected " ++ toString 12 ++
          ". Path must contain exactly one sibling per tree level.")
    ∧ verify_merkle_path_with_hasher (fun a b => a * b) 1 2
        [3, 4, 5, 6, 7, 8, 9, 10, 11, 12, 13] 12 = none := by
  have h := merkle_length_mismatch_rejected 11 12 (by decide)
  exact ⟨h.1, h.2 (fun a b => a * b) 1 2 [3, 4, 5, 6, 7, 8, 9, 10, 11, 12, 13] rfl⟩

/-- C1: for every witness assignment with a 12-element `merkle_path` (and
a `usize` `leaf_index`), `verify_membership` computes
`leaf = hash1(identity_commitment)`, the district root by Merkle-folding
that leaf with the 12 siblings under the decomposed leaf index, and
`nullifier = hash2(identity_commitment, action_id)`; `Prover::prove`
exposes exactly the triple `(district_root, nullifier, action_id)` as a
single instance column of length 3, in that order — no fourth entry, no
permutation. -/
theorem membership_circuit_public_outputs (h1 : F → F) (h2 : F → F → F)
    (c : DistrictMembershipCircuit) (s : Prover)
    (hlen : c.merkle_path.length = 12) (hidx : c.leaf_index < 2 ^ 64) :
    c.verify_membership h1 h2
      = some (specMerkleRoot h2 c.leaf_index c.merkle_path (h1 c.identity_commitment),
              h2 c.identity_commitment c.action_id,
              c.action_id)
    ∧ Prover.prove h1 h2 s c
      = RunOutcome.ok
          { builder := BuilderStage.prover s.config_params s.break_points
            assigned_instances :=
              [[specMerkleRoot h2 c.leaf_index c.merkle_path (h1 c.identity_commitment),
                h2 c.identity_commitment c.action_id,
                c.action_id]]
            public_instances :=
              [specMerkleRoot h2 c.leaf_index c.merkle_path (h1 c.identity_commitment),
               h2 c.identity_commitment c.action_id,
               c.action_id] } := by
  have hm := verify_merkle_path_spec h2 (h1 c.identity_commitment)
      (frFromU64 c.leaf_index) c.merkle_path 12 hlen
  rw [frFromU64_val c.leaf_index hidx] at hm
  have hv : c.verify_membership h1 h2
      = some (specMerkleRoot h2 c.leaf_index c.merkle_path (h1 c.identity_commitment),
              h2 c.identity_commitment c.action_id,
              c.action_id) := by
    unfold DistrictMembershipCircuit.verify_membership
    simp only [hm]
  refine ⟨hv, ?_⟩
  unfold Prover.prove
  rw [hv]

theorem membership_circuit_public_outputs_witness :
    (DistrictMembershipCircuit.mk 3 1 [4, 5, 6, 7, 8, 9, 10, 11, 12, 13, 14, 15] 9).verify_membership
        (fun a => a + 1) (fun a b => a + 2 * b)
      = some (specMerkleRoot (fun a b => a + 2 * b) 1
                [4, 5, 6, 7, 8, 9, 10, 11, 12, 13, 14, 15] ((3 : F) + 1),
              (3 : F) + 2 * 9, 9)
    ∧ Prover.prove (fun a => a + 1) (fun a b => a + 2 * b)
        ⟨14, ⟨[], calculate_params 14⟩, calculate_params 14, [[0]]⟩
        (DistrictMembershipCircuit.mk 3 1 [4, 5, 6, 7, 8, 9, 10, 11, 12, 13, 14, 15] 9)
      = RunOutcome.ok
          { builder := BuilderStage.prover (calculate_params 14) [[0]]
            assigned_instances :=
              [[specMerkleRoot (fun a b => a + 2 * b) 1
                  [4, 5, 6, 7, 8, 9, 10, 11, 12, 13, 14, 15] ((3 : F) + 1),
                (3 : F) + 2 * 9, 9]]
            public_instances :=
              [specMerkleRoot (fun a b => a + 2 * b) 1
                 [4, 5, 6, 7, 8, 9, 10, 11, 12, 13, 14, 15] ((3 : F) + 1),
               (3 : F) + 2 * 9, 9] } :=
  membership_circuit_public_outputs (fun a => a + 1) (fun a b => a + 2 * b)
    (DistrictMembershipCircuit.mk 3 1 [4, 5, 6, 7, 8, 9, 10, 11, 12, 13, 14, 15] 9)
    ⟨14, ⟨[], calculate_params 14⟩, calculate_params 14, [[0]]⟩
    rfl (by decide)

/-- C4 counterexample: `k = 12` lies in the accepted range `[10, 20]`, its
file digest matches no hard-coded canonical digest (the only one is
`CANONICAL_HASH_K14`), yet `load_ceremony_params` returns success and
proceeds to deserialization without any digest comparison — the claimed
hard error does not occur. -/
theorem ceremony_load_unverified_for_k12 :
    load_ceremony_params 12 false false ⟨some "00", none, none⟩
      = Except.ok (ParamsSource.ceremony false)
    ∧ ("00" : String) ≠ canonicalHashK14 := by
  exact ⟨rfl, by decide⟩

/-- C4 amended (the code checks a canonical digest only for `k = 14`):
when loading `k = 14` ceremony parameters, the Blake2b-512 digest of the
file bytes is compared against the hard-coded canonical digest, a mismatch
is a hard error whose message names both the expected and the actual
digest, and deserialization happens only after the digest matches; the
same digest check guards the wasm loader's embedded parameters, and the
wasm loader rejects every other `k` in production builds.  For `k ≠ 14`
the native loader proceeds to deserialization with UNVERIFIED parameters
(a logged warning, not an error). -/
theorem ceremony_hash_check (hashHex : String) (allowTest debugBuild : Bool)
    (pkf : Option (List Nat)) (bpf : Option (List (List Nat))) :
    (hashHex ≠ canonicalHashK14 →
      load_ceremony_params 14 allowTest debugBuild ⟨some hashHex, pkf, bpf⟩
        = Except.error (paramsHashMismatchError canonicalHashK14 hashHex 14)
      ∧ load_ceremony_params_wasm 14 hashHex allowTest
        = Except.error ("🚨 SECURITY ERROR: Embedded K=14 params hash mismatch\n" ++
            "Expected: " ++ canonicalHashK14 ++ "\n" ++
            "Got:      " ++ hashHex ++ "\n" ++
            "The embedded params may be corrupted or tampered with."))
    ∧ (hashHex = canonicalHashK14 →
      load_ceremony_params 14 allowTest debugBuild ⟨some hashHex, pkf, bpf⟩
        = Except.ok (ParamsSource.ceremony true)
      ∧ load_ceremony_params_wasm 14 hashHex allowTest
        = Except.ok (ParamsSource.ceremony true))
    ∧ (∀ k, k ≠ 14 →
      load_ceremony_params k allowTest debugBuild ⟨some hashHex, pkf, bpf⟩
        = Except.ok (ParamsSource.ceremony false)
      ∧ (allowTest = false →
        load_ceremony_params_wasm k hashHex allowTest
          = Except.error ("Unsupported k=" ++ toString k ++
              " in production build. Recompile with ALLOW_TEST_PARAMS=1 for testing."))) := by
  have hph : ¬ (canonicalHashK14 = "PLACEHOLDER_WILL_BE_COMPUTED") := by decide
  refine ⟨?_, ?_, ?_⟩
  · intro hne
    constructor
    · simp [load_ceremony_params, hph, hne]
    · simp [load_ceremony_params_wasm, hne]
  · intro heq
    constructor
    · simp [load_ceremony_params, hph, heq]
    · simp [load_ceremony_params_wasm, heq]
  · intro k hk
    constructor
    · simp [load_ceremony_params, hk]
    · intro hflag
      simp [load_ceremony_params_wasm, hk, hflag]

theorem ceremony_hash_check_witness :
    (("zz" : String) ≠ canonicalHashK14
      ∧ load_ceremony_params 14 false false ⟨some "zz", none, none⟩
        = Except.error (paramsHashMismatchError canonicalHashK14 "zz" 14))
    ∧ load_ceremony_params 14 false false ⟨some canonicalHashK14, none, none⟩
        = Except.ok (ParamsSource.ceremony true)
    ∧ load_ceremony_params_wasm 12 "zz" false
        = Except.error ("Unsupported k=" ++ toString 12 ++
            " in production build. Recompile with ALLOW_TEST_PARAMS=1 for testing.") := by
  have hne : ("zz" : String) ≠ canonicalHashK14 := by decide
  refine ⟨⟨hne, ?_⟩, ?_, ?_⟩
  · exact ((ceremony_hash_check "zz" false false none none).1 hne).1
  · exact ((ceremony_hash_check canonicalHashK14 false false none none).2.1 rfl).1
  · exact (((ceremony_hash_check "zz" false false none none).2.2 12 (by decide)).2 rfl)

/-- C5 counterexample: the configuration params used at proving time are
NOT taken from the persisted artifacts, contradicting the claim's
"persisted configuration params (not from a freshly computed shape /
not regenerated from a fresh dummy circuit)".  At a concrete disk state,
`Prover::new` succeeds with `config_params = calculate_params 14` — the
shape freshly recomputed by the TEMPORARY keygen-stage builder running the
all-zero dummy circuit (`prover.rs`, "Create a temporary builder just to
calculate config_params") — and this value, the side input of the PK
deserialization and of every prover-stage builder, is identical across
disk states whose persisted artifacts (pk bytes, break points) differ:
nothing persisted carries configuration params (`DiskState`, mirroring
the source's on-disk layout, has no such entry). -/
theorem prover_config_params_recomputed :
    Prover.new (fun _ => true) 14 false false
        (DiskState.mk (some canonicalHashK14) (some [7]) (some [[5]]))
      = Except.ok (Prover.mk 14 (ProvingKey.mk [7] (calculate_params 14))
          (calculate_params 14) [[5]])
    ∧ Except.map Prover.config_params
        (Prover.new (fun _ => true) 14 false false
          (DiskState.mk (some canonicalHashK14) (some [7]) (some [[5]])))
      = Except.map Prover.config_params
        (Prover.new (fun _ => true) 14 false false
          (DiskState.mk (some canonicalHashK14) (some [99]) (some [[1], [2]]))) :=
  ⟨rfl, rfl⟩

/-- C5 amended (corrected): after a successful `Prover::new`, every
prove-time run instantiates the builder's prover stage from the
configuration params and break points stored in the `Prover` — the break
points being exactly the content of the persisted
`pk_k{k}_break_points.json`, while the configuration params are
recomputed deterministically at initialization (`calculate_params` of the
temporary keygen-stage builder running the all-zero dummy circuit, the
same computation as at keygen) rather than read from persistence — and
the proving key held by the `Prover` is the deserialization of the
persisted `pk_k{k}.bin` bytes with those same configuration params as the
side input of `ProvingKey::read`, never a key regenerated by keygen. -/
theorem prover_uses_persisted_artifacts (pkParses : List Nat → Bool) (k : Nat)
    (allowTest debugBuild : Bool) (disk : DiskState) (s : Prover)
    (h : Prover.new pkParses k allowTest debugBuild disk = Except.ok s) :
    (∀ (h1 : F → F) (h2 : F → F → F) (c : DistrictMembershipCircuit) (r : ProveRun),
      Prover.prove h1 h2 s c = RunOutcome.ok r →
      r.builder = BuilderStage.prover s.config_params s.break_points)
    ∧ disk.breakPointsFile = some s.break_points
    ∧ (∃ pkBytes, disk.pkFile = some pkBytes
        ∧ provingKey_read pkParses pkBytes s.config_params = Except.ok s.pk)
    ∧ s.pk.config_params = s.config_params
    ∧ s.config_params = calculate_params k := by
  have hbuilder : ∀ (h1 : F → F) (h2 : F → F → F) (c : DistrictMembershipCircuit)
      (r : ProveRun), Prover.prove h1 h2 s c = RunOutcome.ok r →
      r.builder = BuilderStage.prover s.config_params s.break_points := by
    intro h1 h2 c r hr
    unfold Prover.prove at hr
    rcases hm : c.verify_membership h1 h2 with _ | ⟨⟨a, b, d⟩⟩
    · rw [hm] at hr; exact absurd hr (by simp)
    · rw [hm] at hr
      have := RunOutcome.ok.inj hr
      rw [← this]
  refine ⟨hbuilder, ?_⟩
  unfold Prover.new at h
  split at h
  · exact absurd h (by simp)
  rcases hload : load_ceremony_params k allowTest debugBuild disk with e | p <;>
    rw [hload] at h <;> dsimp only at h
  · exact Except.noConfusion h
  rcases hpk : disk.pkFile with _ | pkBytes <;> rw [hpk] at h <;> dsimp only at h
  · exact Except.noConfusion h
  rcases hread : provingKey_read pkParses pkBytes (calculate_params k) with e | pk <;>
    rw [hread] at h <;> dsimp only at h
  · exact Except.noConfusion h
  rcases hbp : disk.breakPointsFile with _ | bp <;> rw [hbp] at h <;> dsimp only at h
  · exact Except.noConfusion h
  have hs := Except.ok.inj h
  subst hs
  refine ⟨rfl, ⟨pkBytes, rfl, hread⟩, ?_, rfl⟩
  unfold provingKey_read at hread
  split at hread
  · have := Except.ok.inj hread
    rw [← this]
  · exact Except.noConfusion hread

theorem prover_uses_persisted_artifacts_witness :
    (∀ (h1 : F → F) (h2 : F → F → F) (c : DistrictMembershipCircuit) (r : ProveRun),
      Prover.prove h1 h2
          (Prover.mk 14 (ProvingKey.mk [1, 2] (calculate_params 14))
            (calculate_params 14) [[3]]) c = RunOutcome.ok r →
      r.builder = BuilderStage.prover (calculate_params 14) [[3]])
    ∧ (DiskState.mk (some canonicalHashK14) (some [1, 2]) (some [[3]])).breakPointsFile
        = some [[3]]
    ∧ (∃ pkBytes,
        (DiskState.mk (some canonicalHashK14) (some [1, 2]) (some [[3]])).pkFile
          = some pkBytes
        ∧ provingKey_read (fun _ => true) pkBytes (calculate_params 14)
          = Except.ok (ProvingKey.mk [1, 2] (calculate_params 14)))
    ∧ (ProvingKey.mk [1, 2] (calculate_params 14)).config_params = calculate_params 14
    ∧ calculate_params 14 = calculate_params 14 :=
  prover_uses_persisted_artifacts (fun _ => true) 14 false false
    (DiskState.mk (some canonicalHashK14) (some [1, 2]) (some [[3]]))
    (Prover.mk 14 (ProvingKey.mk [1, 2] (calculate_params 14))
      (calculate_params 14) [[3]])
    rfl

/-- C6: for every proof byte string and every public-input vector whose
length is not 3, verification returns the specific error naming the
expected length and the list `[district_root, nullifier, action_id]`, and
the result is the same for EVERY SHPLONK verifier oracle — no cryptographic
verification is attempted.  Vectors of length exactly 3 are handed to the
SHPLONK verifier, whose verdict alone determines the result.  The wasm
verifier performs the same length-3 check (before even parsing the hex
inputs) with its own specific message. -/
theorem verify_rejects_wrong_input_count
    (shplonkVerify shplonkVerify' : List Nat → List F → Except String Unit)
    (proof : List Nat) (public_inputs : List F)
    (hexInputs : List (List Char)) :
    (public_inputs.length ≠ 3 →
      Prover.verify shplonkVerify proof public_inputs
        = Except.error ("Expected 3 public inputs, got " ++
            toString public_inputs.length ++
            ". Inputs should be: [district_root, nullifier, action_id]")
      ∧ Prover.verify shplonkVerify proof public_inputs
        = Prover.verify shplonkVerify' proof public_inputs)
    ∧ (public_inputs.length = 3 →
      Prover.verify shplonkVerify proof public_inputs
        = match shplonkVerify proof public_inputs with
          | Except.ok _ => Except.ok true
          | Except.error e => Except.error ("Proof verification failed: " ++ e))
    ∧ (hexInputs.length ≠ 3 →
      wasmVerify shplonkVerify proof hexInputs
        = Except.error ("Invalid public_inputs length: got " ++
            toString hexInputs.length ++
            ", expected 3 values [district_root, nullifier, action_id]")) := by
  refine ⟨fun hne => ?_, fun heq => ?_, fun hne => ?_⟩
  · constructor
    · unfold Prover.verify
      rw [if_pos hne]
    · unfold Prover.verify
      rw [if_pos hne, if_pos hne]
  · unfold Prover.verify
    rw [if_neg (by omega)]
  · unfold wasmVerify
    rw [if_pos hne]

theorem verify_rejects_wrong_input_count_witness :
    Prover.verify (fun _ _ => Except.ok ()) [0] [1, 2]
      = Except.error ("Expected 3 public inputs, got " ++ toString 2 ++
          ". Inputs should be: [district_root, nullifier, action_id]")
    ∧ Prover.verify (fun _ _ => Except.ok ()) [0] [1, 2, 3]
      = Except.ok true
    ∧ wasmVerify (fun _ _ => Except.ok ()) [0] []
      = Except.error ("Invalid public_inputs length: got " ++ toString 0 ++
          ", expected 3 values [district_root, nullifier, action_id]") := by
  have h := verify_rejects_wrong_input_count (fun _ _ => Except.ok ())
    (fun _ _ => Except.ok ()) [0] ([1, 2] : List F) ([] : List (List Char))
  have h3 := verify_rejects_wrong_input_count (fun _ _ => Except.ok ())
    (fun _ _ => Except.ok ()) [0] ([1, 2, 3] : List F) ([] : List (List Char))
  exact ⟨(h.1 (by decide)).1, h3.2.1 (by decide), h.2.2 (by decide)⟩

/-- C10: neither the native verifier nor the shim verifier can return a
`false` value: every returned boolean is `true`.  For a 3-element input
vector the result is `Ok(true)` exactly when the SHPLONK verifier accepts,
and an `Err` carrying a message when it rejects, so a caller that
pattern-matches on a boolean `false` can never observe a rejection. -/
theorem verify_never_returns_false
    (shplonkVerify : List Nat → List F → Except String Unit)
    (proof : List Nat) (public_inputs : List F)
    (hexInputs : List (List Char)) :
    (∀ b, Prover.verify shplonkVerify proof public_inputs = Except.ok b →
      b = true)
    ∧ (∀ b, wasmVerify shplonkVerify proof hexInputs = Except.ok b → b = true)
    ∧ (public_inputs.length = 3 →
      (∀ u, shplonkVerify proof public_inputs = Except.ok u →
        Prover.verify shplonkVerify proof public_inputs = Except.ok true)
      ∧ (∀ e, shplonkVerify proof public_inputs = Except.error e →
        Prover.verify shplonkVerify proof public_inputs
          = Except.error ("Proof verification failed: " ++ e))) := by
  refine ⟨?_, ?_, fun hlen => ⟨?_, ?_⟩⟩
  · intro b hb
    unfold Prover.verify at hb
    split at hb
    · exact Except.noConfusion hb
    · split at hb
      · exact (Except.ok.inj hb).symm
      · exact Except.noConfusion hb
  · intro b hb
    unfold wasmVerify at hb
    split at hb
    · exact Except.noConfusion hb
    · split at hb
      · exact Except.noConfusion hb
      · split at hb
        · exact (Except.ok.inj hb).symm
        · exact Except.noConfusion hb
  · intro u hu
    unfold Prover.verify
    rw [if_neg (by omega), hu]
  · intro e he
    unfold Prover.verify
    rw [if_neg (by omega), he]

theorem verify_never_returns_false_witness :
    Prover.verify (fun _ _ => Except.ok ()) [0] [1, 2, 3] = Except.ok true
    ∧ (true : Bool) = true :=
  ⟨((verify_never_returns_false (fun _ _ => Except.ok ()) [0] [1, 2, 3] []).2.2
      (by decide)).1 () rfl,
   (verify_never_returns_false (fun _ _ => Except.ok ()) [0] [1, 2, 3] []).1 true
     (((verify_never_returns_false (fun _ _ => Except.ok ()) [0] [1, 2, 3] []).2.2
        (by decide)).1 () rfl)⟩

/-! ### Hex and byte roundtrip lemmas -/

theorem hexDigitVal_hexDigitChar : ∀ n, n < 16 →
    hexDigitVal (hexDigitChar n) = some n := by decide

theorem hexDigitChar_ne_x : ∀ n, n < 16 → hexDigitChar n ≠ 'x' := by decide

theorem hexDecode_hexEncode (bs : List Nat) (h : ∀ b ∈ bs, b < 256) :
    hexDecode (hexEncode bs) = some bs := by
  induction bs with
  | nil => rfl
  | cons b bs ih =>
    have hb : b < 256 := h b (List.mem_cons_self _ _)
    show hexDecode (hexDigitChar (b / 16) :: hexDigitChar (b % 16) :: hexEncode bs)
      = some (b :: bs)
    unfold hexDecode
    rw [hexDigitVal_hexDigitChar (b / 16) (by omega),
        hexDigitVal_hexDigitChar (b % 16) (by omega),
        ih fun x hx => h x (List.mem_cons_of_mem _ hx)]
    have hsplit : 16 * (b / 16) + b % 16 = b := by omega
    show some ((16 * (b / 16) + b % 16) :: bs) = some (b :: bs)
    rw [hsplit]

theorem natToLeBytes_length (k : Nat) : ∀ n, (natToLeBytes k n).length = k := by
  induction k with
  | zero => intro n; rfl
  | succ k ih =>
    intro n
    show (n % 256 :: natToLeBytes k (n / 256)).length = k + 1
    simp [ih]

theorem natToLeBytes_lt (k : Nat) : ∀ n, ∀ b ∈ natToLeBytes k n, b < 256 := by
  induction k with
  | zero => intro n b hb; simp [natToLeBytes] at hb
  | succ k ih =>
    intro n b hb
    simp only [natToLeBytes, List.mem_cons] at hb
    rcases hb with hb | hb
    · omega
    · exact ih (n / 256) b hb

theorem leBytesToNat_natToLeBytes (k : Nat) : ∀ n,
    leBytesToNat (natToLeBytes k n) = n % 256 ^ k := by
  induction k with
  | zero =>
    intro n
    show (0 : Nat) = n % 1
    omega
  | succ k ih =>
    intro n
    show n % 256 + 256 * leBytesToNat (natToLeBytes k (n / 256)) = n % 256 ^ (k + 1)
    rw [ih (n / 256)]
    have hpos : 0 < 256 ^ k := Nat.pos_pow_of_pos k (by omega)
    have h1 : n % 256 < 256 := Nat.mod_lt _ (by omega)
    have h2 : n / 256 % 256 ^ k < 256 ^ k := Nat.mod_lt _ hpos
    have hee : 256 ^ (k + 1) = 256 * 256 ^ k := by rw [pow_succ]; ring
    have hlt : n % 256 + 256 * (n / 256 % 256 ^ k) < 256 ^ (k + 1) := by
      have hb : n / 256 % 256 ^ k ≤ 256 ^ k - 1 := by omega
      have hmul : 256 * (n / 256 % 256 ^ k) ≤ 256 * (256 ^ k - 1) :=
        Nat.mul_le_mul_left _ hb
      omega
    have hsum : n = n % 256 + 256 * (n / 256 % 256 ^ k)
        + 256 ^ (k + 1) * (n / 256 / 256 ^ k) := by
      have e1 : n % 256 + 256 * (n / 256) = n := Nat.mod_add_div n 256
      have e2 : n / 256 % 256 ^ k + 256 ^ k * (n / 256 / 256 ^ k) = n / 256 :=
        Nat.mod_add_div (n / 256) (256 ^ k)
      calc n = n % 256 + 256 * (n / 256) := e1.symm
        _ = n % 256 + 256 * (n / 256 % 256 ^ k + 256 ^ k * (n / 256 / 256 ^ k)) := by
            rw [e2]
        _ = n % 256 + 256 * (n / 256 % 256 ^ k)
            + 256 ^ (k + 1) * (n / 256 / 256 ^ k) := by rw [hee]; ring
    conv_rhs => rw [hsum]
    rw [Nat.add_mul_mod_self_left, Nat.mod_eq_of_lt hlt]

theorem fVal_lt_two_pow_256 (f : F) : f.val < 256 ^ 32 := by
  have h := ZMod.val_lt f
  have : bnR < 256 ^ 32 := by decide
  omega

/-- `trim_start_matches("0x")` leaves the output of `hexEncode` alone:
hex digits never contain the character `x`. -/
theorem trimStart0x_hexEncode (bs : List Nat) (h : ∀ b ∈ bs, b < 256) :
    trimStart0x (hexEncode bs) = hexEncode bs := by
  cases bs with
  | nil => rfl
  | cons b bs =>
    have hb : b % 16 < 16 := by omega
    have hcond : ¬(hexDigitChar (b / 16) = '0' ∧ hexDigitChar (b % 16) = 'x') := by
      rintro ⟨-, hx⟩
      exact hexDigitChar_ne_x (b % 16) hb hx
    show trimStart0x (hexDigitChar (b / 16) :: hexDigitChar (b % 16) :: hexEncode bs)
      = hexDigitChar (b / 16) :: hexDigitChar (b % 16) :: hexEncode bs
    unfold trimStart0x
    rw [if_neg hcond]

/-- Unfolding of `parse_fr_hex` once the hex decode result is known. -/
theorem parse_fr_hex_decoded (hex : List Char) (bytes : List Nat)
    (hd : hexDecode (stripPrefix0x hex) = some bytes) :
    parse_fr_hex hex
      = if 32 < bytes.length then
          Except.error ("Hex string too long: " ++ toString bytes.length ++
            " bytes (max 32 for Fr field element)")
        else if leBytesToNat (List.replicate (32 - bytes.length) 0 ++ bytes).reverse < bnR
          then Except.ok
            ((leBytesToNat (List.replicate (32 - bytes.length) 0 ++ bytes).reverse : Nat) : F)
          else Except.error "Invalid field element (out of range)" := by
  unfold parse_fr_hex
  simp only [hd]

/-- Unfolding of `hex_to_field` once the hex decode result is known. -/
theorem hex_to_field_decoded (hex : List Char) (bytes : List Nat)
    (hd : hexDecode (trimStart0x hex) = some bytes) :
    hex_to_field hex
      = if 32 < bytes.length then RunOutcome.panicked
        else if leBytesToNat (List.replicate (32 - bytes.length) 0 ++ bytes) < bnR
          then RunOutcome.ok
            ((leBytesToNat (List.replicate (32 - bytes.length) 0 ++ bytes) : Nat) : F)
          else RunOutcome.err "Field element out of range" := by
  unfold hex_to_field
  simp only [hd]

/-- Both renderers invert their own parser: `parse_fr_hex ∘ fr_to_hex = ok`
(big-endian path of the shim) and `hex_to_field ∘ field_to_hex = ok`
(raw `to_repr` path of the utility module). -/
theorem parse_render_roundtrip (f : F) :
    parse_fr_hex (fr_to_hex f) = Except.ok f
    ∧ hex_to_field (field_to_hex f) = RunOutcome.ok f := by
  have hbytes : ∀ b ∈ natToLeBytes 32 f.val, b < 256 := natToLeBytes_lt 32 f.val
  have hlen : (natToLeBytes 32 f.val).length = 32 := natToLeBytes_length 32 f.val
  have hle : leBytesToNat (natToLeBytes 32 f.val) = f.val := by
    rw [leBytesToNat_natToLeBytes 32 f.val,
        Nat.mod_eq_of_lt (fVal_lt_two_pow_256 f)]
  have hvlt : f.val < bnR := ZMod.val_lt f
  constructor
  · show parse_fr_hex ('0' :: 'x' :: hexEncode (natToLeBytes 32 f.val).reverse)
      = Except.ok f
    have hd : hexDecode (stripPrefix0x
        ('0' :: 'x' :: hexEncode (natToLeBytes 32 f.val).reverse))
        = some (natToLeBytes 32 f.val).reverse :=
      hexDecode_hexEncode _ fun b hb => hbytes b (List.mem_reverse.mp hb)
    rw [parse_fr_hex_decoded _ _ hd, List.length_reverse, hlen,
        if_neg (by omega), Nat.sub_self, List.replicate_zero, List.nil_append,
        List.reverse_reverse, hle, if_pos hvlt]
    exact congrArg Except.ok (ZMod.natCast_rightInverse f)
  · show hex_to_field ('0' :: 'x' :: hexEncode (natToLeBytes 32 f.val))
      = RunOutcome.ok f
    have hd : hexDecode (trimStart0x
        ('0' :: 'x' :: hexEncode (natToLeBytes 32 f.val)))
        = some (natToLeBytes 32 f.val) := by
      rw [show trimStart0x ('0' :: 'x' :: hexEncode (natToLeBytes 32 f.val))
            = trimStart0x (hexEncode (natToLeBytes 32 f.val)) from rfl,
          trimStart0x_hexEncode _ hbytes]
      exact hexDecode_hexEncode _ hbytes
    rw [hex_to_field_decoded _ _ hd, hlen, if_neg (by omega), Nat.sub_self,
        List.replicate_zero, List.nil_append, hle, if_pos hvlt]
    exact congrArg RunOutcome.ok (ZMod.natCast_rightInverse f)

/-- C8 counterexample: the utility converter `utils.rs::hex_to_field` does
NOT read hex as a big-endian number.  Parsing `"0x2a"` yields the field
element whose canonical value is `42 * 2^248` (the single byte `0x2a` is
right-aligned in a 32-byte buffer that `Fr::from_repr` then reads as
little-endian), not 42. -/
theorem hex_to_field_not_big_endian :
    hex_to_field ['0', 'x', '2', 'a'] = RunOutcome.ok ((42 * 2 ^ 248 : Nat) : F)
    ∧ ((42 * 2 ^ 248 : Nat) : F) ≠ ((42 : Nat) : F) := by
  constructor
  · rfl
  · intro hcontra
    have h := congrArg ZMod.val hcontra
    rw [ZMod.val_natCast, ZMod.val_natCast] at h
    revert h
    decide

/-- C8 amended (corrected): the SHIM's parser `parse_fr_hex` reads the hex
digit string as big-endian bytes (parsing `"0x2a"` yields 42) and
`fr_to_hex` is its inverse.  The UTILITY converter `hex_to_field` instead
hands its big-endian-padded buffer directly to the little-endian
`Fr::from_repr` without the byte reversal the shim performs, so it yields
the little-endian interpretation (parsing `"0x2a"` yields `42 * 2^248`);
`field_to_hex` still inverts `hex_to_field`, because rendering uses the
raw `to_repr` bytes in the same order. -/
theorem hex_parsing_endianness (f : F) :
    parse_fr_hex ['0', 'x', '2', 'a'] = Except.ok ((42 : Nat) : F)
    ∧ parse_fr_hex (fr_to_hex f) = Except.ok f
    ∧ hex_to_field ['0', 'x', '2', 'a'] = RunOutcome.ok ((42 * 2 ^ 248 : Nat) : F)
    ∧ hex_to_field (field_to_hex f) = RunOutcome.ok f := by
  refine ⟨rfl, (parse_render_roundtrip f).1, rfl, (parse_render_roundtrip f).2⟩

/-- `verify_membership` on a 12-sibling path always reaches the public
outputs (the Merkle gadget's panic branch cannot fire). -/
theorem verify_membership_eq_some (h1 : F → F) (h2 : F → F → F)
    (c : DistrictMembershipCircuit) (hlen : c.merkle_path.length = 12) :
    c.verify_membership h1 h2
      = some (specMerkleRoot h2 (frFromU64 c.leaf_index).val c.merkle_path
                (h1 c.identity_commitment),
              h2 c.identity_commitment c.action_id, c.action_id) := by
  have hm := verify_merkle_path_spec h2 (h1 c.identity_commitment)
      (frFromU64 c.leaf_index) c.merkle_path 12 hlen
  unfold DistrictMembershipCircuit.verify_membership
  simp only [hm]

/-- C9: through the browser shim's prove entry point the Merkle length
panic is unreachable.  `wasmProve` never produces the panic outcome: any
parsed `merkle_path` whose length differs from 12 is rejected with an
input-shape error before the circuit is constructed (specifically, the
`Invalid merkle_path length` error once the other inputs parse), so every
circuit built via the shim calls the Merkle gadget with exactly 12
siblings and the gadget's length-mismatch panic branch never executes. -/
theorem shim_prove_panic_unreachable (h1 : F → F) (h2 : F → F → F)
    (config_params : BaseCircuitParams) (break_points : List (List Nat))
    (identity_commitment action_id : List Char) (leaf_index : Nat)
    (merkle_path : List (List Char)) :
    wasmProve h1 h2 config_params break_points identity_commitment action_id
        leaf_index merkle_path ≠ RunOutcome.panicked
    ∧ (∀ path, parseFrList merkle_path = Except.ok path → path.length ≠ 12 →
      ∃ e, wasmProve h1 h2 config_params break_points identity_commitment
          action_id leaf_index merkle_path = RunOutcome.err e)
    ∧ (∀ identity action path,
      parse_fr_hex identity_commitment = Except.ok identity →
      parseActionId action_id = Except.ok action →
      parseFrList merkle_path = Except.ok path →
      path.length ≠ 12 →
      wasmProve h1 h2 config_params break_points identity_commitment action_id
          leaf_index merkle_path
        = RunOutcome.err ("Invalid merkle_path length: got " ++
            toString path.length ++
            ", expected 12 siblings for single-tier tree")) := by
  refine ⟨?_, ?_, ?_⟩
  · intro hcontra
    unfold wasmProve at hcontra
    rcases hid : parse_fr_hex identity_commitment with e | identity
    · rw [hid] at hcontra
      exact RunOutcome.noConfusion hcontra
    rw [hid] at hcontra
    rcases hact : parseActionId action_id with e | action
    · rw [hact] at hcontra
      exact RunOutcome.noConfusion hcontra
    rw [hact] at hcontra
    rcases hpath : parseFrList merkle_path with e | path
    · rw [hpath] at hcontra
      exact RunOutcome.noConfusion hcontra
    rw [hpath] at hcontra
    dsimp only at hcontra
    by_cases hlen : path.length ≠ 12
    · rw [if_pos hlen] at hcontra
      exact RunOutcome.noConfusion hcontra
    · rw [if_neg hlen] at hcontra
      rw [verify_membership_eq_some h1 h2 ⟨identity, leaf_index, path, action⟩
        (by show path.length = 12; omega)] at hcontra
      exact RunOutcome.noConfusion hcontra
  · intro path hokpath hne
    unfold wasmProve
    rcases hid : parse_fr_hex identity_commitment with e | identity
    · exact ⟨e, rfl⟩
    rcases hact : parseActionId action_id with e | action
    · exact ⟨e, rfl⟩
    rw [hokpath]
    dsimp only
    rw [if_pos hne]
    exact ⟨_, rfl⟩
  · intro identity action path hokid hokact hokpath hne
    unfold wasmProve
    rw [hokid, hokact, hokpath]
    dsimp only
    rw [if_pos hne]

theorem shim_prove_panic_unreachable_witness :
    wasmProve (fun a => a) (fun a b => a * b) (calculate_params 14) [[0]]
        ['0', 'x', '0', '1'] ['7'] 0 [['0', 'x', '0', '2']]
      ≠ RunOutcome.panicked
    ∧ wasmProve (fun a => a) (fun a b => a * b) (calculate_params 14) [[0]]
        ['0', 'x', '0', '1'] ['7'] 0 [['0', 'x', '0', '2']]
      = RunOutcome.err ("Invalid merkle_path length: got " ++ toString 1 ++
          ", expected 12 siblings for single-tier tree") := by
  have h := shim_prove_panic_unreachable (fun a => a) (fun a b => a * b)
    (calculate_params 14) [[0]] ['0', 'x', '0', '1'] ['7'] 0
    [['0', 'x', '0', '2']]
  refine ⟨h.1, ?_⟩
  exact h.2.2 ((1 : Nat) : F) ((7 : Nat) : F) [((2 : Nat) : F)] rfl rfl rfl
    (by decide)

end VoterProtocol
